import Mathlib

/-!
# monero-lws `rpc/client.cpp`: cancellable wait, signal bus and rate cache

A shallow embedding of `src/rpc/client.cpp`.

* Durations and time points are mathematical integers (`Int`).  The C++ types
  are signed 64-bit `std::chrono` values whose overflow is undefined
  behaviour, so only the defined range is modelled.  `steady_clock` ticks are
  nanoseconds.
* The messaging substrate (libzmq), the clock and the HTTP client are external
  collaborators.  They are modelled as a deterministic environment: every
  response is a function of the history of calls issued so far, and the
  functions of `client.cpp` thread that history through explicitly.
* Loops (`for (;;)`, `while`) are modelled with fuel; `none` as a result means
  that the loop was still running when the fuel ran out.
-/

namespace lws
namespace rpc

/-! ## Errors and `expect<T>` -/

/-- Error codes that `client.cpp` produces or passes through. -/
inductive error where
  /-- Code `lws::error::daemon_timeout` -/
  | daemon_timeout
  /-- Code `lws::error::signal_abort_process` -/
  | signal_abort_process
  /-- Code `lws::error::signal_abort_scan` -/
  | signal_abort_scan
  /-- Code `lws::error::signal_unknown` -/
  | signal_unknown
  /-- Code `lws::error::exchange_rates_disabled` -/
  | exchange_rates_disabled
  /-- Code `lws::error::exchange_rates_fetch` -/
  | exchange_rates_fetch
  /-- Code `lws::error::exchange_rates_old` -/
  | exchange_rates_old
  /-- Code `common_error::kInvalidArgument`, returned by `MONERO_PRECOND` -/
  | invalid_argument
  /-- Code `net::zmq::make_error_code(errno)` -/
  | zmq (errno : Int)
  /-- any other error category (for instance one returned by the rates parser) -/
  | other (code : Nat)
  deriving DecidableEq, Repr

/-- The type `expect<T>`: a value or an error code. -/
abbrev expect (α : Type) := Except error α

/-! ## Constants of libzmq and errno.h -/

/-- Event flag `ZMQ_POLLIN` of `zmq.h`. -/
def ZMQ_POLLIN : Nat := 1

/-- Event flag `ZMQ_POLLOUT` of `zmq.h`. -/
def ZMQ_POLLOUT : Nat := 2

/-- Event flag `ZMQ_POLLERR` of `zmq.h`. -/
def ZMQ_POLLERR : Nat := 4

/-- Error number `EINTR` (Linux). -/
def EINTR : Int := 4

/-- Error number `EAGAIN` (Linux). -/
def EAGAIN : Int := 11

/-! ## Constants of the anonymous namespace -/

/-- Array `constexpr const char abort_scan_signal[] = "SCAN";` (five chars, with the terminator). -/
def abort_scan_signal : List Char := ['S', 'C', 'A', 'N', Char.ofNat 0]

/-- Array `constexpr const char abort_process_signal[] = "PROCESS";` (eight chars, with the terminator). -/
def abort_process_signal : List Char := ['P', 'R', 'O', 'C', 'E', 'S', 'S', Char.ofNat 0]

/-! ## The environment -/

/-- Calls issued to the external collaborators, in program order. -/
inductive call where
  /-- Call `std::chrono::steady_clock::now()` -/
  | now
  /-- Call `zmq_poll(items, 2, timeout.count())` with the requested events of the two items -/
  | zmq_poll (daemon_events signal_events : Nat) (timeout : Int)
  /-- Call `zmq_recv(signal_sub, buf, 1, 0)` -/
  | zmq_recv
  /-- Call `net::zmq::send(message.clone(), daemon, ZMQ_DONTWAIT)` -/
  | send (message : List Nat)
  /-- Call `net::zmq::receive(daemon, ZMQ_DONTWAIT)` -/
  | receive
  deriving DecidableEq, Repr

/-- What one `zmq_poll` call reports. -/
structure poll_result where
  /-- return value of `zmq_poll` -/
  ready : Int
  /-- Value of `items[0].revents` after the call -/
  daemon_revents : Int
  /-- Value of `items[1].revents` after the call -/
  signal_revents : Int
  /-- Value of `zmq_errno()` after the call -/
  errno : Int
  deriving DecidableEq, Repr

/-- What one `zmq_recv(signal_sub, buf, 1, 0)` call reports. -/
structure recv_result where
  /-- return value of `zmq_recv`: the size of the frame, or a negative value -/
  ret : Int
  /-- Value of `zmq_errno()` after the call -/
  errno : Int
  /-- content of `buf[0]` after the call: the first byte of the frame when the
  frame is not empty (an empty frame leaves the uninitialised byte) -/
  buf0 : Char
  deriving DecidableEq, Repr

/-- The messaging substrate and the clock.  Each response is a function of the
calls issued before it, so every state of the two sockets is covered. -/
structure substrate where
  /-- reading of `steady_clock::now()`, in nanoseconds -/
  clock : List call → Int
  /-- outcome of `zmq_poll` for the given requested events and timeout -/
  poll : List call → Nat → Nat → Int → poll_result
  /-- outcome of `zmq_recv` on the subscriber socket -/
  recv : List call → recv_result
  /-- outcome of the non-blocking `net::zmq::send` on the daemon socket -/
  send : List call → List Nat → expect Unit
  /-- outcome of the non-blocking `net::zmq::receive` on the daemon socket -/
  receive : List call → expect (List Nat)

/-! ## `do_wait` -/

/-- Conversion `std::chrono::duration_cast<std::chrono::milliseconds>` of a nanosecond
duration: integer division truncating toward zero. -/
def duration_cast_ms (ns : Int) : Int := Int.tdiv ns 1000000

/-- Conversion `std::chrono::seconds` to `std::chrono::milliseconds` at the
call of `do_wait`. -/
def seconds_to_ms (s : Int) : Int := s * 1000

/-- Lines 83-84 of `do_wait`:
`spent = duration_cast<milliseconds>(start - end); timeout -= std::min(spent, timeout);`
giving the value of `timeout` after one poll. -/
def next_timeout (timeout start end_ : Int) : Int :=
  let spent := duration_cast_ms (start - end_)
  timeout - min spent timeout

/-- How the `for (;;)` loop of `do_wait` is left. -/
inductive poll_exit where
  /-- a `return` inside the loop -/
  | returned (e : error)
  /-- Statement `break` with `0 < ready`; carries `items[0].revents` -/
  | ready (daemon_revents : Int)
  deriving DecidableEq, Repr

/-- The `for (;;)` loop of `do_wait` (lines 78-93). -/
def poll_loop (s : substrate) (events : Nat) : Nat → Int → List call → Option poll_exit × List call
  | 0, _, tr => (none, tr)
  | fuel + 1, timeout, tr =>
    let start := s.clock tr
    let tr1 := tr ++ [call.now]
    let p := s.poll tr1 (events ||| ZMQ_POLLERR) (ZMQ_POLLIN ||| ZMQ_POLLERR) timeout
    let tr2 := tr1 ++ [call.zmq_poll (events ||| ZMQ_POLLERR) (ZMQ_POLLIN ||| ZMQ_POLLERR) timeout]
    let end_ := s.clock tr2
    let tr3 := tr2 ++ [call.now]
    let timeout1 := next_timeout timeout start end_
    if p.ready = 0 then (some (poll_exit.returned error.daemon_timeout), tr3)
    else if 0 < p.ready then (some (poll_exit.ready p.daemon_revents), tr3)
    else if p.errno ≠ EINTR then (some (poll_exit.returned (error.zmq p.errno)), tr3)
    else poll_loop s events fuel timeout1 tr3

/-- Modelled from the spec: the macro `MONERO_ZMQ_CHECK` of `net/zmq.h`, which
is not under `src/`.  Operations guarded by it "fail only on a transport
error": when the libzmq call returns a negative value the enclosing function
returns `net::zmq::get_error_code()`, the error of `zmq_errno()`. -/
def MONERO_ZMQ_CHECK (ret errno : Int) : Option error :=
  if ret < 0 then some (error.zmq errno) else none

/-- The classification `switch (buf[0])` of `do_wait` (lines 100-109). -/
def classify (b : Char) : error :=
  if b = 'P' then error.signal_abort_process
  else if b = 'S' then error.signal_abort_scan
  else error.signal_unknown

/-- Lines 94-109 of `do_wait`: what happens after the loop was left by `break`. -/
def after_poll (s : substrate) (daemon_revents : Int) (tr : List call) : expect Unit × List call :=
  if daemon_revents ≠ 0 then (Except.ok (), tr)
  else
    let r := s.recv tr
    let tr1 := tr ++ [call.zmq_recv]
    match MONERO_ZMQ_CHECK r.ret r.errno with
    | some e => (Except.error e, tr1)
    | none => (Except.error (classify r.buf0), tr1)

/-- Function `expect<void> do_wait(void* daemon, void* signal_sub, short events, milliseconds timeout)`.
The result is `none` when the poll loop did not end within `fuel` iterations. -/
def do_wait (s : substrate) (events : Nat) (fuel : Nat) (timeout : Int) (tr : List call) :
    Option (expect Unit) × List call :=
  if timeout ≤ 0 then (some (Except.error error.daemon_timeout), tr)
  else
    match poll_loop s events fuel timeout tr with
    | (none, tr1) => (none, tr1)
    | (some (poll_exit.returned e), tr1) => (some (Except.error e), tr1)
    | (some (poll_exit.ready rev), tr1) =>
      let r := after_poll s rev tr1
      (some r.1, r.2)

/-! ## The shared context and the clients -/

/-- The fields of `detail::context` that the rate cache uses.  The shared
pointer `ctx` of a `client` or `context` handle is modelled as
`Option (detail_context R)`, `none` being `nullptr`; `R` is `lws::rates`. -/
structure detail_context (R : Type) where
  /-- Field `rates_conn`: the number of requests issued on the HTTP connection so far -/
  rates_conn : Nat
  /-- Field `cache_time`, in `steady_clock` ticks (nanoseconds) -/
  cache_time : Int
  /-- Field `cache_interval`, in minutes -/
  cache_interval : Int
  /-- Field `cached` -/
  cached : R

/-- Function `expect<void> client::wait(std::chrono::seconds timeout)`. -/
def client.wait {R : Type} (ctx : Option (detail_context R)) (s : substrate) (fuel : Nat)
    (timeout : Int) (tr : List call) : Option (expect Unit) × List call :=
  match ctx with
  | none => (some (Except.error error.invalid_argument), tr)
  | some _ => do_wait s 0 fuel (seconds_to_ms timeout) tr

/-- Outcome of `client::send` and `client::get_message`: the result (`none`
when a loop did not end within its fuel), the calls issued, and the timeouts
in milliseconds handed to `do_wait`, in order. -/
structure outcome (α : Type) where
  result : Option (expect α)
  trace : List call
  waits : List Int

/-- The `while` loop of `client::send` (lines 222-230).  `wfuel` is the fuel of
each inner `do_wait`. -/
def send_loop (s : substrate) (wfuel : Nat) (message : List Nat) :
    Nat → Int → List call → List Int → outcome Unit
  | 0, _, tr, ws => ⟨none, tr, ws⟩
  | fuel + 1, timeout, tr, ws =>
    let sent := s.send tr message
    let tr1 := tr ++ [call.send message]
    match sent with
    | Except.ok _ => ⟨some (Except.ok ()), tr1, ws⟩
    | Except.error e =>
      if e ≠ error.zmq EAGAIN then ⟨some (Except.error e), tr1, ws⟩
      else
        let ws1 := ws ++ [seconds_to_ms timeout]
        match do_wait s ZMQ_POLLOUT wfuel (seconds_to_ms timeout) tr1 with
        | (none, tr2) => ⟨none, tr2, ws1⟩
        | (some (Except.error e1), tr2) => ⟨some (Except.error e1), tr2, ws1⟩
        | (some (Except.ok _), tr2) => send_loop s wfuel message fuel 0 tr2 ws1

/-- Function `expect<void> client::send(epee::byte_slice message, std::chrono::seconds timeout)`. -/
def client.send {R : Type} (ctx : Option (detail_context R)) (s : substrate) (wfuel fuel : Nat)
    (message : List Nat) (timeout : Int) (tr : List call) : outcome Unit :=
  match ctx with
  | none => ⟨some (Except.error error.invalid_argument), tr, []⟩
  | some _ => send_loop s wfuel message fuel timeout tr []

/-- The `while` loop of `client::get_message` (lines 163-172). -/
def get_message_loop (s : substrate) (wfuel : Nat) :
    Nat → Int → List call → List Int → outcome (List Nat)
  | 0, _, tr, ws => ⟨none, tr, ws⟩
  | fuel + 1, timeout, tr, ws =>
    let msg := s.receive tr
    let tr1 := tr ++ [call.receive]
    match msg with
    | Except.ok m => ⟨some (Except.ok m), tr1, ws⟩
    | Except.error e =>
      if e ≠ error.zmq EAGAIN then ⟨some (Except.error e), tr1, ws⟩
      else
        let ws1 := ws ++ [seconds_to_ms timeout]
        match do_wait s ZMQ_POLLIN wfuel (seconds_to_ms timeout) tr1 with
        | (none, tr2) => ⟨none, tr2, ws1⟩
        | (some (Except.error e1), tr2) => ⟨some (Except.error e1), tr2, ws1⟩
        | (some (Except.ok _), tr2) => get_message_loop s wfuel fuel 0 tr2 ws1

/-- Function `expect<std::string> client::get_message(std::chrono::seconds timeout)`. -/
def client.get_message {R : Type} (ctx : Option (detail_context R)) (s : substrate)
    (wfuel fuel : Nat) (timeout : Int) (tr : List call) : outcome (List Nat) :=
  match ctx with
  | none => ⟨some (Except.error error.invalid_argument), tr, []⟩
  | some _ => get_message_loop s wfuel fuel timeout tr []

/-- Number of non-blocking transport attempts (`net::zmq::send`,
`net::zmq::receive`) among the calls. -/
def transport_attempts (tr : List call) : Nat :=
  tr.countP (fun c => match c with
    | call.send _ => true
    | call.receive => true
    | _ => false)

/-! ## The signal bus -/

/-- ZeroMQ subscription matching: a subscriber socket accepts a frame when
one of its filters is an initial segment of the frame. -/
def matches_filter : List Char → List Char → Bool
  | [], _ => true
  | _ :: _, [] => false
  | f :: fs, b :: bs => f == b && matches_filter fs bs

/-- Whether a subscriber socket with these filters is handed the frame. -/
def delivered (signal_sub : List (List Char)) (frame : List Char) : Bool :=
  signal_sub.any (fun f => matches_filter f frame)

/-- What `zmq_recv(signal_sub, buf, 1, 0)` reports when it reads the frame:
the frame size, and in `buf[0]` the first byte of the frame. -/
def recv_frame (frame : List Char) (uninit : Char) : recv_result :=
  ⟨(frame.length : Int), 0, frame.headD uninit⟩

/-- Helper `do_signal(signal_pub, signal)`: `zmq_send` of all `sizeof(signal)` chars.
`ret` and `errno` are what `zmq_send` reports; `signal_pub` is the list of
frames published so far. -/
def do_signal (ret errno : Int) (signal_pub : List (List Char)) (signal : List Char) :
    expect Unit × List (List Char) :=
  match MONERO_ZMQ_CHECK ret errno with
  | some e => (Except.error e, signal_pub)
  | none => (Except.ok (), signal_pub ++ [signal])

/-- Helper `do_subscribe(signal_sub, signal)`: `zmq_setsockopt(ZMQ_SUBSCRIBE)` with all
`sizeof(signal)` chars.  `ret` and `errno` are what `zmq_setsockopt` reports;
`signal_sub` is the list of filters installed so far. -/
def do_subscribe (ret errno : Int) (signal_sub : List (List Char)) (signal : List Char) :
    expect Unit × List (List Char) :=
  match MONERO_ZMQ_CHECK ret errno with
  | some e => (Except.error e, signal_sub)
  | none => (Except.ok (), signal_sub ++ [signal])

/-- What the libzmq calls of `client::make` report. -/
structure make_env where
  /-- Whether `zmq_socket(ZMQ_REQ)` returned a socket -/
  daemon_socket : Bool
  /-- Result of `zmq_connect` of the daemon socket -/
  daemon_connect : Int
  /-- Result of `zmq_setsockopt(ZMQ_LINGER)` -/
  daemon_linger : Int
  /-- Whether `zmq_socket(ZMQ_SUB)` returned a socket -/
  sub_socket : Bool
  /-- Result of `zmq_connect` of the subscriber socket -/
  sub_connect : Int
  /-- Result of `zmq_setsockopt(ZMQ_SUBSCRIBE)` -/
  subscribe : Int
  /-- Value of `zmq_errno()` -/
  errno : Int

/-- Function `expect<client> client::make(std::shared_ptr<detail::context> ctx)`; the
value returned is the filter list of the subscriber socket of the new client. -/
def client.make {R : Type} (ctx : Option (detail_context R)) (m : make_env) :
    expect (List (List Char)) :=
  match ctx with
  | none => Except.error error.invalid_argument
  | some _ =>
    if m.daemon_socket = false then Except.error (error.zmq m.errno)
    else if m.daemon_connect < 0 then Except.error (error.zmq m.errno)
    else if m.daemon_linger < 0 then Except.error (error.zmq m.errno)
    else if m.sub_socket = false then Except.error (error.zmq m.errno)
    else if m.sub_connect < 0 then Except.error (error.zmq m.errno)
    else
      match do_subscribe m.subscribe m.errno [] abort_process_signal with
      | (Except.error e, _) => Except.error e
      | (Except.ok _, subs) => Except.ok subs

/-- Function `expect<void> client::watch_scan_signals()`. -/
def client.watch_scan_signals {R : Type} (ctx : Option (detail_context R)) (ret errno : Int)
    (signal_sub : List (List Char)) : expect Unit × List (List Char) :=
  match ctx with
  | none => (Except.error error.invalid_argument, signal_sub)
  | some _ => do_subscribe ret errno signal_sub abort_scan_signal

/-- Function `expect<void> context::raise_abort_scan()`. -/
def context.raise_abort_scan {R : Type} (ctx : Option (detail_context R)) (ret errno : Int)
    (signal_pub : List (List Char)) : expect Unit × List (List Char) :=
  match ctx with
  | none => (Except.error error.invalid_argument, signal_pub)
  | some _ => do_signal ret errno signal_pub abort_scan_signal

/-- Function `expect<void> context::raise_abort_process()`. -/
def context.raise_abort_process {R : Type} (ctx : Option (detail_context R)) (ret errno : Int)
    (signal_pub : List (List Char)) : expect Unit × List (List Char) :=
  match ctx with
  | none => (Except.error error.invalid_argument, signal_pub)
  | some _ => do_signal ret errno signal_pub abort_process_signal

/-! ## The rate cache -/

/-- A duration of whole minutes in `steady_clock` ticks (nanoseconds). -/
def minutes_to_ns (m : Int) : Int := m * 60 * 1000000000

/-- A duration of whole seconds in `steady_clock` ticks (nanoseconds). -/
def seconds_to_ns (sec : Int) : Int := sec * 1000000000

/-- Conversion `std::chrono::minutes` converted to `std::chrono::seconds`. -/
def minutes_to_seconds (m : Int) : Int := m * 60

/-- Helper `boost::make_optional(cond, v)`: holds `v` when `cond` is true and is
empty otherwise. -/
def make_optional {R : Type} (cond : Bool) (v : R) : Option R :=
  if cond then some v else none

/-- Function `expect<rates> client::get_rates() const`, with `now` the reading of
`steady_clock::now()`.  The context is returned next to the result. -/
def client.get_rates {R : Type} (ctx : Option (detail_context R)) (now : Int) :
    expect R × Option (detail_context R) :=
  match ctx with
  | none => (Except.error error.invalid_argument, ctx)
  | some c =>
    if c.cache_interval ≤ 0 then (Except.error error.exchange_rates_disabled, ctx)
    else if now - c.cache_time ≥ seconds_to_ns (minutes_to_seconds c.cache_interval + 30) then
      (Except.error error.exchange_rates_old, ctx)
    else (Except.ok c.cached, ctx)

/-- Structure `http::http_response_info`: the fields read by `retrieve_rates`. -/
structure http_response_info where
  m_response_code : Int
  m_body : List Nat

/-- What one `rates_conn.invoke_get(...)` call reports: its return value and
the pointer stored in `info`. -/
structure http_result where
  ok : Bool
  info : Option http_response_info

/-- Function `expect<boost::optional<lws::rates>> context::retrieve_rates()`, with `now`
the reading of `steady_clock::now()`.  `crypto_compare` is the parser of the
response body and `invoke_get k` is what the price source answers to request
number `k` of the connection. -/
def context.retrieve_rates {R : Type} (crypto_compare : List Nat → expect R)
    (invoke_get : Nat → http_result) (ctx : Option (detail_context R)) (now : Int) :
    expect (Option R) × Option (detail_context R) :=
  match ctx with
  | none => (Except.error error.invalid_argument, ctx)
  | some c =>
    if c.cache_interval ≤ 0 then (Except.ok (make_optional false c.cached), ctx)
    else if now - c.cache_time < minutes_to_ns c.cache_interval then
      (Except.ok (make_optional false c.cached), ctx)
    else
      let r := invoke_get c.rates_conn
      let conn := c.rates_conn + 1
      let fresh : expect R :=
        match r.ok, r.info with
        | true, some info =>
          if info.m_response_code = 200 then crypto_compare info.m_body
          else Except.error error.exchange_rates_fetch
        | _, _ => Except.error error.exchange_rates_fetch
      match fresh with
      | Except.ok v => (Except.ok (make_optional true v), some ⟨conn, now, c.cache_interval, v⟩)
      | Except.error e => (Except.error e, some ⟨conn, now, c.cache_interval, c.cached⟩)

/-! ## Example environments used to instantiate the theorems -/

/-- A substrate whose daemon socket is always ready and whose subscriber
socket always has a `PROCESS` frame pending. -/
def busy_substrate : substrate where
  clock := fun tr => (tr.length : Int) * 1000000
  poll := fun _ _ _ _ => ⟨2, 1, 1, 0⟩
  recv := fun _ => ⟨8, 0, 'P'⟩
  send := fun _ _ => Except.ok ()
  receive := fun _ => Except.ok [1, 2, 3]

/-- A context with a one minute refresh interval that never fetched. -/
def fresh_context : detail_context Nat := ⟨0, 0, 1, 0⟩

/-- A context with caching disabled. -/
def disabled_context : detail_context Nat := ⟨0, 0, 0, 0⟩

/-- A price source that answers every request with status 200. -/
def source_up : Nat → http_result := fun _ => ⟨true, some ⟨200, [55]⟩⟩

/-- A price source whose transport call fails. -/
def source_down : Nat → http_result := fun _ => ⟨false, none⟩

/-- A parser that maps every body to the rates value `7`. -/
def parse_seven : List Nat → expect Nat := fun _ => Except.ok 7

/-- A substrate whose first poll is interrupted (`EINTR`) after 100 ms and
whose second poll reports that nothing is ready, again after 100 ms. -/
def interrupted_substrate : substrate where
  clock := fun tr => ((tr.length / 2 : Nat) : Int) * 100000000
  poll := fun tr _ _ _ => if tr.length ≤ 1 then ⟨-1, 0, 0, 4⟩ else ⟨0, 0, 0, 0⟩
  recv := fun _ => ⟨-1, 11, Char.ofNat 0⟩
  send := fun _ _ => Except.ok ()
  receive := fun _ => Except.ok []

/-- A substrate whose poll reports the subscriber socket only and whose
receive on that socket fails with `EINTR`. -/
def recv_fails_substrate : substrate where
  clock := fun _ => 0
  poll := fun _ _ _ _ => ⟨1, 0, 1, 0⟩
  recv := fun _ => ⟨-1, 4, 'S'⟩
  send := fun _ _ => Except.ok ()
  receive := fun _ => Except.ok []

/-- A substrate whose poll reports the subscriber socket only and whose
receive on that socket reads a `PROCESS` frame. -/
def process_signal_substrate : substrate where
  clock := fun _ => 0
  poll := fun _ _ _ _ => ⟨1, 0, 1, 0⟩
  recv := fun _ => recv_frame abort_process_signal (Char.ofNat 0)
  send := fun _ _ => Except.ok ()
  receive := fun _ => Except.ok []

/-- A substrate whose daemon socket always reports would-block on a transport
attempt although every poll reports it ready. -/
def would_block_substrate : substrate where
  clock := fun _ => 0
  poll := fun _ _ _ _ => ⟨1, 2, 0, 0⟩
  recv := fun _ => ⟨-1, 11, Char.ofNat 0⟩
  send := fun _ _ => Except.error (error.zmq EAGAIN)
  receive := fun _ => Except.error (error.zmq EAGAIN)

/-! ## Theorems: the rate cache -/

/-- C2: with a positive interval, `get_rates` returns `exchange_rates_old`
exactly when `now - cache_time` is at least the interval plus 30 seconds,
returns the cached value otherwise, and leaves the context as it was. -/
theorem C2_get_rates_stale_boundary {R : Type} (c : detail_context R) (now : Int)
    (hpos : 0 < c.cache_interval) :
    ((client.get_rates (some c) now).1 = Except.error error.exchange_rates_old ↔
        now - c.cache_time ≥ (c.cache_interval * 60 + 30) * 1000000000) ∧
    (now - c.cache_time < (c.cache_interval * 60 + 30) * 1000000000 →
        (client.get_rates (some c) now).1 = Except.ok c.cached) ∧
    (client.get_rates (some c) now).2 = some c := by
  have hnot : ¬ c.cache_interval ≤ 0 := not_le.mpr hpos
  by_cases hold : now - c.cache_time ≥ (c.cache_interval * 60 + 30) * 1000000000
  · refine ⟨?_, ?_, ?_⟩
    · simp [client.get_rates, hnot, seconds_to_ns, minutes_to_seconds, hold]
    · intro hlt
      exact absurd hold (not_le.mpr hlt)
    · simp [client.get_rates, hnot, seconds_to_ns, minutes_to_seconds, hold]
  · refine ⟨?_, ?_, ?_⟩
    · simp [client.get_rates, hnot, seconds_to_ns, minutes_to_seconds, hold]
    · intro _
      simp [client.get_rates, hnot, seconds_to_ns, minutes_to_seconds, hold]
    · simp [client.get_rates, hnot, seconds_to_ns, minutes_to_seconds, hold]

/-- Instance of C2 on a context with a one minute interval, read one second
before the boundary of 90 seconds. -/
theorem C2_get_rates_stale_boundary_witness :
    (0 : Int) < fresh_context.cache_interval ∧
    (((client.get_rates (some fresh_context) 89000000000).1 =
          Except.error error.exchange_rates_old ↔
        (89000000000 : Int) - fresh_context.cache_time ≥
          (fresh_context.cache_interval * 60 + 30) * 1000000000) ∧
    ((89000000000 : Int) - fresh_context.cache_time <
          (fresh_context.cache_interval * 60 + 30) * 1000000000 →
        (client.get_rates (some fresh_context) 89000000000).1 =
          Except.ok fresh_context.cached) ∧
    (client.get_rates (some fresh_context) 89000000000).2 = some fresh_context) :=
  ⟨by decide, C2_get_rates_stale_boundary fresh_context 89000000000 (by decide)⟩

/-- C9: with a non-positive interval, `get_rates` returns
`exchange_rates_disabled`, `retrieve_rates` returns success with an empty
optional, and both leave the context (request count of the HTTP connection,
cached value, refresh time) as it was. -/
theorem C9_disabled_cache {R : Type} (crypto_compare : List Nat → expect R)
    (invoke_get : Nat → http_result) (c : detail_context R) (now : Int)
    (hoff : c.cache_interval ≤ 0) :
    client.get_rates (some c) now = (Except.error error.exchange_rates_disabled, some c) ∧
    context.retrieve_rates crypto_compare invoke_get (some c) now = (Except.ok none, some c) := by
  simp [client.get_rates, context.retrieve_rates, make_optional, hoff]

/-- Instance of C9 on a context with interval zero and a reachable source. -/
theorem C9_disabled_cache_witness :
    disabled_context.cache_interval ≤ 0 ∧
    client.get_rates (some disabled_context) 5 =
      (Except.error error.exchange_rates_disabled, some disabled_context) ∧
    context.retrieve_rates parse_seven source_up (some disabled_context) 5 =
      (Except.ok none, some disabled_context) :=
  ⟨by decide, C9_disabled_cache parse_seven source_up disabled_context 5 (by decide)⟩

/-- With a positive interval and a refresh that is not yet due,
`retrieve_rates` returns an empty optional and changes nothing. -/
theorem retrieve_rates_reuse {R : Type} (crypto_compare : List Nat → expect R)
    (invoke_get : Nat → http_result) (c : detail_context R) (now : Int)
    (hpos : 0 < c.cache_interval) (hin : now - c.cache_time < c.cache_interval * 60 * 1000000000) :
    context.retrieve_rates crypto_compare invoke_get (some c) now = (Except.ok none, some c) := by
  have hnot : ¬ c.cache_interval ≤ 0 := not_le.mpr hpos
  simp [context.retrieve_rates, make_optional, hnot, minutes_to_ns, hin]

/-- With a positive interval and a refresh that is due, `retrieve_rates`
issues one request and stores `now` as the refresh time. -/
theorem retrieve_rates_due {R : Type} (crypto_compare : List Nat → expect R)
    (invoke_get : Nat → http_result) (c : detail_context R) (now : Int)
    (hpos : 0 < c.cache_interval)
    (hdue : ¬ now - c.cache_time < c.cache_interval * 60 * 1000000000) :
    ∃ c1, (context.retrieve_rates crypto_compare invoke_get (some c) now).2 = some c1 ∧
      c1.rates_conn = c.rates_conn + 1 ∧ c1.cache_time = now ∧
      c1.cache_interval = c.cache_interval ∧
      (((context.retrieve_rates crypto_compare invoke_get (some c) now).1 = Except.ok (some c1.cached)) ∨
       (c1.cached = c.cached ∧
        ∃ e, (context.retrieve_rates crypto_compare invoke_get (some c) now).1 = Except.error e)) := by
  have hnot : ¬ c.cache_interval ≤ 0 := not_le.mpr hpos
  simp only [context.retrieve_rates, hnot, minutes_to_ns, hdue, if_false, make_optional]
  split
  · exact ⟨_, rfl, rfl, rfl, rfl, Or.inl (by simp)⟩
  · exact ⟨_, rfl, rfl, rfl, rfl, Or.inr ⟨rfl, _, rfl⟩⟩

/-- C4: when the refresh is due and the fetch fails (the transport call
fails, no response information is stored, or the status is not 200),
`retrieve_rates` returns `exchange_rates_fetch`, keeps the cached value and
stores `now` as the refresh time; `get_rates` at any later time before
`now` plus the interval plus 30 seconds returns the value cached before. -/
theorem C4_failed_fetch_keeps_cache {R : Type} (crypto_compare : List Nat → expect R)
    (invoke_get : Nat → http_result) (c : detail_context R) (now : Int)
    (hpos : 0 < c.cache_interval)
    (hdue : ¬ now - c.cache_time < c.cache_interval * 60 * 1000000000)
    (hfail : (invoke_get c.rates_conn).ok = false ∨ (invoke_get c.rates_conn).info = none ∨
      ∃ info, (invoke_get c.rates_conn).info = some info ∧ info.m_response_code ≠ 200) :
    context.retrieve_rates crypto_compare invoke_get (some c) now =
      (Except.error error.exchange_rates_fetch,
        some ⟨c.rates_conn + 1, now, c.cache_interval, c.cached⟩) ∧
    ∀ later : Int, now ≤ later → later < now + (c.cache_interval * 60 + 30) * 1000000000 →
      (client.get_rates
        (context.retrieve_rates crypto_compare invoke_get (some c) now).2 later).1 =
        Except.ok c.cached := by
  have hnot : ¬ c.cache_interval ≤ 0 := not_le.mpr hpos
  have hret : context.retrieve_rates crypto_compare invoke_get (some c) now =
      (Except.error error.exchange_rates_fetch,
        some ⟨c.rates_conn + 1, now, c.cache_interval, c.cached⟩) := by
    simp only [context.retrieve_rates, hnot, minutes_to_ns, hdue, if_false]
    rcases hfail with h | h | ⟨info, h, hcode⟩
    · simp [h]
    · cases hok : (invoke_get c.rates_conn).ok <;> simp [h]
    · cases hok : (invoke_get c.rates_conn).ok <;> simp [h, hcode]
  refine ⟨hret, ?_⟩
  intro later _ hlt
  rw [hret]
  have hfresh : ¬ later - now ≥ (c.cache_interval * 60 + 30) * 1000000000 := by
    intro hge
    linarith
  simp [client.get_rates, hnot, seconds_to_ns, minutes_to_seconds, hfresh]

/-- Instance of C4: a context holding the value `7` since time zero, a
refresh at minute one against a source that is down, and a read 89 seconds
after the failed refresh. -/
theorem C4_failed_fetch_keeps_cache_witness :
    (0 : Int) < (⟨1, 0, 1, 7⟩ : detail_context Nat).cache_interval ∧
    (context.retrieve_rates parse_seven source_down (some ⟨1, 0, 1, 7⟩) 60000000000 =
      (Except.error error.exchange_rates_fetch, some ⟨2, 60000000000, 1, 7⟩) ∧
    ∀ later : Int, (60000000000 : Int) ≤ later →
      later < 60000000000 + ((1 : Int) * 60 + 30) * 1000000000 →
      (client.get_rates
        (context.retrieve_rates parse_seven source_down (some ⟨1, 0, 1, 7⟩) 60000000000).2
        later).1 = Except.ok 7) :=
  ⟨by decide,
    C4_failed_fetch_keeps_cache parse_seven source_down ⟨1, 0, 1, 7⟩ 60000000000
      (by decide) (by decide) (Or.inl rfl)⟩

/-- C10: with a positive interval, after `retrieve_rates` at time `t` the
stored refresh time is less than one interval before `t`, whatever the
outcome; so `get_rates` at any time from `t` to `t` plus 30 seconds does not
return `exchange_rates_old` but the cached value. -/
theorem C10_retrieve_then_get_not_old {R : Type} (crypto_compare : List Nat → expect R)
    (invoke_get : Nat → http_result) (c : detail_context R) (t : Int)
    (hpos : 0 < c.cache_interval) :
    ∃ c1, (context.retrieve_rates crypto_compare invoke_get (some c) t).2 = some c1 ∧
      c1.cache_interval = c.cache_interval ∧
      t - c1.cache_time < c1.cache_interval * 60 * 1000000000 ∧
      ∀ later : Int, t ≤ later → later ≤ t + 30 * 1000000000 →
        (client.get_rates (some c1) later).1 ≠ Except.error error.exchange_rates_old ∧
        (client.get_rates (some c1) later).1 = Except.ok c1.cached := by
  have key : ∃ c1, (context.retrieve_rates crypto_compare invoke_get (some c) t).2 = some c1 ∧
      c1.cache_interval = c.cache_interval ∧
      t - c1.cache_time < c1.cache_interval * 60 * 1000000000 := by
    by_cases hin : t - c.cache_time < c.cache_interval * 60 * 1000000000
    · refine ⟨c, ?_, rfl, hin⟩
      rw [retrieve_rates_reuse crypto_compare invoke_get c t hpos hin]
    · obtain ⟨c1, h2, _, htime, hint, _⟩ :=
        retrieve_rates_due crypto_compare invoke_get c t hpos hin
      refine ⟨c1, h2, hint, ?_⟩
      rw [htime, hint]
      have : (0 : Int) < c.cache_interval * 60 * 1000000000 := by positivity
      linarith
  obtain ⟨c1, h2, hint, hlt⟩ := key
  refine ⟨c1, h2, hint, hlt, ?_⟩
  intro later _ hle
  have hnot : ¬ c1.cache_interval ≤ 0 := by rw [hint]; exact not_le.mpr hpos
  have hfresh : ¬ later - c1.cache_time ≥ (c1.cache_interval * 60 + 30) * 1000000000 := by
    intro hge
    linarith
  have hval : (client.get_rates (some c1) later).1 = Except.ok c1.cached := by
    simp [client.get_rates, hnot, seconds_to_ns, minutes_to_seconds, hfresh]
  exact ⟨by rw [hval]; simp, hval⟩

/-- Instance of C10 on a context that never fetched, refreshed at minute one
against a source that is down. -/
theorem C10_retrieve_then_get_not_old_witness :
    (0 : Int) < fresh_context.cache_interval ∧
    ∃ c1, (context.retrieve_rates parse_seven source_down (some fresh_context) 60000000000).2 =
        some c1 ∧
      c1.cache_interval = fresh_context.cache_interval ∧
      (60000000000 : Int) - c1.cache_time < c1.cache_interval * 60 * 1000000000 ∧
      ∀ later : Int, (60000000000 : Int) ≤ later → later ≤ 60000000000 + 30 * 1000000000 →
        (client.get_rates (some c1) later).1 ≠ Except.error error.exchange_rates_old ∧
        (client.get_rates (some c1) later).1 = Except.ok c1.cached :=
  ⟨by decide,
    C10_retrieve_then_get_not_old parse_seven source_down fresh_context 60000000000 (by decide)⟩

/-- C3 (amended): with a positive interval, when `retrieve_rates` at `t1`
returned a fresh value `v`, a second call at `t2` with `t1 ≤ t2 < t1 + interval`
issues no request and returns success with an empty optional; the context
still caches `v` and the two calls together issued exactly one request. -/
theorem C3_second_retrieve_is_empty {R : Type} (crypto_compare : List Nat → expect R)
    (invoke_get : Nat → http_result) (c : detail_context R) (t1 t2 : Int) (v : R)
    (s1 : Option (detail_context R))
    (hpos : 0 < c.cache_interval)
    (hfirst : context.retrieve_rates crypto_compare invoke_get (some c) t1 =
      (Except.ok (some v), s1))
    (_h12 : t1 ≤ t2) (h2 : t2 < t1 + c.cache_interval * 60 * 1000000000) :
    context.retrieve_rates crypto_compare invoke_get s1 t2 = (Except.ok none, s1) ∧
    ∃ c1, s1 = some c1 ∧ c1.cached = v ∧ c1.rates_conn = c.rates_conn + 1 := by
  by_cases hin : t1 - c.cache_time < c.cache_interval * 60 * 1000000000
  · rw [retrieve_rates_reuse crypto_compare invoke_get c t1 hpos hin] at hfirst
    simp at hfirst
  · obtain ⟨c1, hs, hconn, htime, hint, hres⟩ :=
      retrieve_rates_due crypto_compare invoke_get c t1 hpos hin
    rw [hfirst] at hs hres
    simp only at hs hres
    have hv : c1.cached = v := by
      rcases hres with h | ⟨_, e, h⟩
      · simpa using h.symm
      · simp at h
    subst hs
    refine ⟨?_, c1, rfl, hv, hconn⟩
    apply retrieve_rates_reuse
    · rw [hint]; exact hpos
    · rw [htime, hint]; linarith

/-- Instance of C3 (amended): first refresh at minute one against a source
that is up, second call one second later. -/
theorem C3_second_retrieve_is_empty_witness :
    (0 : Int) < fresh_context.cache_interval ∧
    context.retrieve_rates parse_seven source_up (some fresh_context) 60000000000 =
      (Except.ok (some 7), some ⟨1, 60000000000, 1, 7⟩) ∧
    (60000000000 : Int) ≤ 61000000000 ∧
    (61000000000 : Int) < 60000000000 + fresh_context.cache_interval * 60 * 1000000000 ∧
    (context.retrieve_rates parse_seven source_up (some ⟨1, 60000000000, 1, 7⟩) 61000000000 =
      (Except.ok none, some ⟨1, 60000000000, 1, 7⟩) ∧
    ∃ c1, (some ⟨1, 60000000000, 1, 7⟩ : Option (detail_context Nat)) = some c1 ∧
      c1.cached = 7 ∧ c1.rates_conn = fresh_context.rates_conn + 1) :=
  ⟨by decide, rfl, by decide, by decide,
    C3_second_retrieve_is_empty parse_seven source_up fresh_context 60000000000 61000000000 7
      (some ⟨1, 60000000000, 1, 7⟩) (by decide) rfl (by decide) (by decide)⟩

/-- C3 as stated fails: after a first call at minute one that fetched and
returned the fresh value `7`, the second call one second later issues no
request but returns an empty optional, not the value `7`. -/
theorem C3_second_retrieve_returns_no_value :
    (0 : Int) < fresh_context.cache_interval ∧
    context.retrieve_rates parse_seven source_up (some fresh_context) 60000000000 =
      (Except.ok (some 7), some ⟨1, 60000000000, 1, 7⟩) ∧
    (60000000000 : Int) ≤ 61000000000 ∧
    (61000000000 : Int) < 60000000000 + fresh_context.cache_interval * 60 * 1000000000 ∧
    (context.retrieve_rates parse_seven source_up (some ⟨1, 60000000000, 1, 7⟩) 61000000000).1 =
      Except.ok none ∧
    (context.retrieve_rates parse_seven source_up (some ⟨1, 60000000000, 1, 7⟩) 61000000000).1 ≠
      Except.ok (some 7) :=
  ⟨by decide, rfl, by decide, by decide, rfl,
    fun h => Option.noConfusion
      (Except.ok.inj (show (Except.ok none : expect (Option Nat)) = Except.ok (some 7) from h))⟩

/-! ## Theorems: the cancellable wait -/

/-- C1: with a timeout that is zero or negative, `do_wait` and `client::wait`
return `daemon_timeout` and issue no call at all (no clock reading, no poll,
no receive), whatever the sockets would report. -/
theorem C1_nonpositive_timeout_no_poll {R : Type} (c : detail_context R) (s : substrate)
    (events fuel : Nat) (timeout : Int) (tr : List call) (h : timeout ≤ 0) :
    do_wait s events fuel timeout tr = (some (Except.error error.daemon_timeout), tr) ∧
    client.wait (some c) s fuel timeout tr = (some (Except.error error.daemon_timeout), tr) := by
  have hms : seconds_to_ms timeout ≤ 0 := by
    unfold seconds_to_ms
    linarith
  constructor
  · simp [do_wait, h]
  · simp [client.wait, do_wait, hms]

/-- Instance of C1: timeout zero on a substrate whose daemon socket is ready
and whose subscriber socket has a frame pending. -/
theorem C1_nonpositive_timeout_no_poll_witness :
    (0 : Int) ≤ 0 ∧
    do_wait busy_substrate ZMQ_POLLIN 5 0 [] = (some (Except.error error.daemon_timeout), []) ∧
    client.wait (some fresh_context) busy_substrate 5 0 [] =
      (some (Except.error error.daemon_timeout), []) :=
  ⟨le_refl 0, C1_nonpositive_timeout_no_poll fresh_context busy_substrate ZMQ_POLLIN 5 0 []
    (le_refl 0)⟩

/-- With a steady clock (`start ≤ end_`) and a positive timeout, the update of
lines 83-84 adds the elapsed milliseconds to the timeout. -/
theorem next_timeout_steady (timeout start end_ : Int) (hpos : 0 < timeout)
    (hclock : start ≤ end_) :
    next_timeout timeout start end_ = timeout + (end_ - start) / 1000000 := by
  have hneg : duration_cast_ms (start - end_) = -((end_ - start) / 1000000) := by
    unfold duration_cast_ms
    have h1 : start - end_ = -(end_ - start) := by ring
    rw [h1, Int.neg_tdiv, Int.tdiv_eq_ediv (by linarith) (by norm_num)]
  have hnn : (0 : Int) ≤ (end_ - start) / 1000000 :=
    Int.ediv_nonneg (by linarith) (by norm_num)
  unfold next_timeout
  simp only
  rw [hneg, min_eq_left (by linarith)]
  ring

/-- The timeout is never negative after the update of lines 83-84. -/
theorem next_timeout_nonneg (timeout start end_ : Int) :
    0 ≤ next_timeout timeout start end_ := by
  unfold next_timeout
  simp only
  have := min_le_right (duration_cast_ms (start - end_)) timeout
  linarith

/-- C5 on the code: a wait of 1000 ms whose first poll is interrupted after
100 ms polls again with 1100 ms, not with 900 ms: the elapsed time is added to
the remaining timeout, which exceeds the timeout requested. -/
theorem C5_interrupted_poll_extends_timeout :
    next_timeout 1000 0 100000000 = 1100 ∧
    next_timeout 1000 0 100000000 ≠ max 0 (1000 - (100000000 - 0) / 1000000) ∧
    (1000 : Int) < next_timeout 1000 0 100000000 ∧
    do_wait interrupted_substrate 0 2 1000 [] =
      (some (Except.error error.daemon_timeout),
        [call.now, call.zmq_poll 4 5 1000, call.now,
         call.now, call.zmq_poll 4 5 1100, call.now]) := by
  refine ⟨by decide, by decide, by decide, ?_⟩
  rfl

/-- The three results of the `switch` of `do_wait`. -/
theorem classify_cases :
    classify 'P' = error.signal_abort_process ∧
    classify 'S' = error.signal_abort_scan ∧
    ∀ b : Char, b ≠ 'P' → b ≠ 'S' → classify b = error.signal_unknown := by
  refine ⟨by decide, by decide, ?_⟩
  intro b hP hS
  simp [classify, hP, hS]

/-- With a positive timeout, `do_wait` continues as `after_poll` once the loop
was left with a ready socket. -/
theorem do_wait_of_ready (s : substrate) (events fuel : Nat) (timeout : Int)
    (tr tr1 : List call) (rev : Int) (hpos : 0 < timeout)
    (hloop : poll_loop s events fuel timeout tr = (some (poll_exit.ready rev), tr1)) :
    do_wait s events fuel timeout tr = (some (after_poll s rev tr1).1, (after_poll s rev tr1).2) := by
  have hnot : ¬ timeout ≤ 0 := not_le.mpr hpos
  simp [do_wait, hnot, hloop]

/-- C6 (amended): once the poll loop of `do_wait` is left with a ready socket,
a daemon socket with any returned event gives success and no receive is
issued; otherwise exactly one receive is issued on the subscriber socket, a
failed receive gives its transport error, and a receive that succeeds gives
the error selected by `buf[0]`, the first byte of the frame: `P` gives
`signal_abort_process`, `S` gives `signal_abort_scan`, any other byte gives
`signal_unknown`. -/
theorem C6_ready_daemon_first_then_signal (s : substrate) (events fuel : Nat) (timeout : Int)
    (tr tr1 : List call) (rev : Int) (hpos : 0 < timeout)
    (hloop : poll_loop s events fuel timeout tr = (some (poll_exit.ready rev), tr1)) :
    (rev ≠ 0 → do_wait s events fuel timeout tr = (some (Except.ok ()), tr1)) ∧
    (rev = 0 →
      (do_wait s events fuel timeout tr).2 = tr1 ++ [call.zmq_recv] ∧
      ((s.recv tr1).ret < 0 →
        (do_wait s events fuel timeout tr).1 = some (Except.error (error.zmq (s.recv tr1).errno))) ∧
      (0 ≤ (s.recv tr1).ret →
        (do_wait s events fuel timeout tr).1 =
          some (Except.error (classify (s.recv tr1).buf0)))) ∧
    classify 'P' = error.signal_abort_process ∧
    classify 'S' = error.signal_abort_scan ∧
    ∀ b : Char, b ≠ 'P' → b ≠ 'S' → classify b = error.signal_unknown := by
  rw [do_wait_of_ready s events fuel timeout tr tr1 rev hpos hloop]
  refine ⟨?_, ?_, classify_cases⟩
  · intro hrev
    simp [after_poll, MONERO_ZMQ_CHECK, hrev]
  · intro hrev
    by_cases hret : (s.recv tr1).ret < 0
    · refine ⟨?_, ?_, ?_⟩
      · simp [after_poll, MONERO_ZMQ_CHECK, hrev, hret]
      · intro _
        simp [after_poll, MONERO_ZMQ_CHECK, hrev, hret]
      · intro hge
        exact absurd hret (not_lt.mpr hge)
    · refine ⟨?_, ?_, ?_⟩
      · simp [after_poll, MONERO_ZMQ_CHECK, hrev, hret]
      · intro hlt
        exact absurd hlt hret
      · intro _
        simp [after_poll, MONERO_ZMQ_CHECK, hrev, hret]

/-- Instance of C6 (amended): the daemon socket is ready and a `PROCESS`
frame is pending; the wait succeeds without a receive. -/
theorem C6_ready_daemon_first_then_signal_witness :
    (0 : Int) < 1000 ∧
    poll_loop busy_substrate ZMQ_POLLIN 1 1000 [] =
      (some (poll_exit.ready 1), [call.now, call.zmq_poll 5 5 1000, call.now]) ∧
    do_wait busy_substrate ZMQ_POLLIN 1 1000 [] =
      (some (Except.ok ()), [call.now, call.zmq_poll 5 5 1000, call.now]) :=
  ⟨by decide, rfl,
    (C6_ready_daemon_first_then_signal busy_substrate ZMQ_POLLIN 1 1000 []
      [call.now, call.zmq_poll 5 5 1000, call.now] 1 (by decide) rfl).1 (by decide)⟩

/-- C6 as stated fails: the poll reports one ready socket, the daemon socket
has no returned event, and the receive on the subscriber socket fails; the
result is the transport error of the receive, which is none of the three
signal errors and not the one selected by `buf[0]`. -/
theorem C6_failed_receive_is_transport_error :
    (0 : Int) < 1000 ∧
    poll_loop recv_fails_substrate 0 1 1000 [] =
      (some (poll_exit.ready 0), [call.now, call.zmq_poll 4 5 1000, call.now]) ∧
    do_wait recv_fails_substrate 0 1 1000 [] =
      (some (Except.error (error.zmq 4)),
        [call.now, call.zmq_poll 4 5 1000, call.now, call.zmq_recv]) ∧
    (recv_fails_substrate.recv [call.now, call.zmq_poll 4 5 1000, call.now]).buf0 = 'S' ∧
    error.zmq 4 ≠ classify 'S' ∧
    error.zmq 4 ≠ error.signal_abort_process ∧
    error.zmq 4 ≠ error.signal_abort_scan ∧
    error.zmq 4 ≠ error.signal_unknown :=
  ⟨by decide, rfl, rfl, rfl, by decide, by decide, by decide, by decide⟩

/-! ## Theorems: the signal bus -/

/-- C8: with subscription as matching of an initial segment, the frame of
`raise_abort_scan` matches the filter of `watch_scan_signals` and not the
`PROCESS` filter of `client::make`, the frame of `raise_abort_process` matches
the `PROCESS` filter and not the `SCAN` filter, a client that did not call
`watch_scan_signals` is not handed a `SCAN` frame, and `client::wait` turns a
received `PROCESS` frame into `signal_abort_process` and a received `SCAN`
frame into `signal_abort_scan`. -/
theorem C8_signal_routing {R : Type} (c : detail_context R) (m : make_env)
    (subs pub : List (List Char)) (ret errno : Int) (hret : 0 ≤ ret)
    (hmake : client.make (some c) m = Except.ok subs) :
    (context.raise_abort_scan (some c) ret errno pub).2 = pub ++ [abort_scan_signal] ∧
    (context.raise_abort_process (some c) ret errno pub).2 = pub ++ [abort_process_signal] ∧
    subs = [abort_process_signal] ∧
    (client.watch_scan_signals (some c) ret errno subs).2 = subs ++ [abort_scan_signal] ∧
    matches_filter abort_scan_signal abort_scan_signal = true ∧
    matches_filter abort_process_signal abort_scan_signal = false ∧
    matches_filter abort_process_signal abort_process_signal = true ∧
    matches_filter abort_scan_signal abort_process_signal = false ∧
    delivered subs abort_scan_signal = false ∧
    delivered subs abort_process_signal = true ∧
    delivered (client.watch_scan_signals (some c) ret errno subs).2 abort_scan_signal = true ∧
    (∀ (s : substrate) (fuel : Nat) (timeout : Int) (tr tr1 : List call) (uninit : Char),
      0 < timeout →
      poll_loop s 0 fuel (seconds_to_ms timeout) tr = (some (poll_exit.ready 0), tr1) →
      (s.recv tr1 = recv_frame abort_process_signal uninit →
        client.wait (some c) s fuel timeout tr =
          (some (Except.error error.signal_abort_process), tr1 ++ [call.zmq_recv])) ∧
      (s.recv tr1 = recv_frame abort_scan_signal uninit →
        client.wait (some c) s fuel timeout tr =
          (some (Except.error error.signal_abort_scan), tr1 ++ [call.zmq_recv]))) := by
  have hnot : ¬ ret < 0 := not_lt.mpr hret
  have hsubs : subs = [abort_process_signal] := by
    unfold client.make at hmake
    simp only at hmake
    split at hmake
    · cases hmake
    · split at hmake
      · cases hmake
      · split at hmake
        · cases hmake
        · split at hmake
          · cases hmake
          · split at hmake
            · cases hmake
            · unfold do_subscribe MONERO_ZMQ_CHECK at hmake
              split at hmake
              · next h =>
                split at h
                · cases h
                  cases hmake
                · cases h
              · next h =>
                split at h
                · cases h
                · simp only [List.nil_append, Prod.mk.injEq] at h
                  rw [h.2]
                  exact (Except.ok.inj hmake).symm
  subst hsubs
  refine ⟨?_, ?_, rfl, ?_, by decide, by decide, by decide, by decide, by decide, by decide,
    ?_, ?_⟩
  · simp [context.raise_abort_scan, do_signal, MONERO_ZMQ_CHECK, hnot]
  · simp [context.raise_abort_process, do_signal, MONERO_ZMQ_CHECK, hnot]
  · simp [client.watch_scan_signals, do_subscribe, MONERO_ZMQ_CHECK, hnot]
  · simp only [client.watch_scan_signals, do_subscribe, MONERO_ZMQ_CHECK, hnot, if_false]
    decide
  · intro s fuel timeout tr tr1 uninit hpos hloop
    have hms : 0 < seconds_to_ms timeout := by
      unfold seconds_to_ms
      linarith
    have hw : client.wait (some c) s fuel timeout tr =
        (some (after_poll s 0 tr1).1, (after_poll s 0 tr1).2) := by
      simp only [client.wait]
      exact do_wait_of_ready s 0 fuel (seconds_to_ms timeout) tr tr1 0 hms hloop
    rw [hw]
    constructor
    · intro hrecv
      simp [after_poll, MONERO_ZMQ_CHECK, hrecv, recv_frame, abort_process_signal, classify]
    · intro hrecv
      simp [after_poll, MONERO_ZMQ_CHECK, hrecv, recv_frame, abort_scan_signal, classify]

/-- Instance of C8: a client made without `watch_scan_signals` is not handed
the `SCAN` frame, and its wait turns a `PROCESS` frame into
`signal_abort_process`. -/
theorem C8_signal_routing_witness :
    (0 : Int) ≤ 0 ∧
    client.make (some fresh_context) ⟨true, 0, 0, true, 0, 0, 0⟩ =
      Except.ok [abort_process_signal] ∧
    delivered [abort_process_signal] abort_scan_signal = false ∧
    client.wait (some fresh_context) process_signal_substrate 1 1 [] =
      (some (Except.error error.signal_abort_process),
        [call.now, call.zmq_poll 4 5 1000, call.now] ++ [call.zmq_recv]) :=
  ⟨le_refl 0, rfl,
    (C8_signal_routing fresh_context ⟨true, 0, 0, true, 0, 0, 0⟩ [abort_process_signal] []
      0 0 (le_refl 0) rfl).2.2.2.2.2.2.2.2.1,
    ((C8_signal_routing fresh_context ⟨true, 0, 0, true, 0, 0, 0⟩ [abort_process_signal] []
      0 0 (le_refl 0) rfl).2.2.2.2.2.2.2.2.2.2.2 process_signal_substrate 1 1 []
      [call.now, call.zmq_poll 4 5 1000, call.now] (Char.ofNat 0) (by decide) rfl).1 rfl⟩

/-! ## Theorems: `send` and `get_message` -/

/-- The poll loop issues no transport attempt. -/
theorem poll_loop_attempts (s : substrate) (events : Nat) :
    ∀ (fuel : Nat) (timeout : Int) (tr : List call),
      transport_attempts (poll_loop s events fuel timeout tr).2 = transport_attempts tr := by
  intro fuel
  induction fuel with
  | zero =>
    intro timeout tr
    simp [poll_loop]
  | succ n ih =>
    intro timeout tr
    unfold poll_loop
    simp only
    split_ifs
    · simp [transport_attempts, List.countP_append]
    · simp [transport_attempts, List.countP_append]
    · simp [transport_attempts, List.countP_append]
    · rw [ih]
      simp [transport_attempts, List.countP_append]

/-- The wait `do_wait` issues no transport attempt. -/
theorem do_wait_attempts (s : substrate) (events fuel : Nat) (timeout : Int) (tr : List call) :
    transport_attempts (do_wait s events fuel timeout tr).2 = transport_attempts tr := by
  have hloop := poll_loop_attempts s events fuel timeout tr
  unfold do_wait
  split_ifs
  · rfl
  · rcases hp : poll_loop s events fuel timeout tr with ⟨r, tr1⟩
    rw [hp] at hloop
    simp only at hloop
    rcases r with _ | (e | rev)
    · simpa using hloop
    · simpa using hloop
    · simp only [after_poll, MONERO_ZMQ_CHECK]
      split_ifs
      · simpa using hloop
      · simp [transport_attempts, List.countP_append] at hloop ⊢
        exact hloop
      · simp [transport_attempts, List.countP_append] at hloop ⊢
        exact hloop

/-- A wait with timeout zero returns `daemon_timeout` without any call. -/
theorem do_wait_zero (s : substrate) (events fuel : Nat) (tr : List call) :
    do_wait s events fuel (seconds_to_ms 0) tr =
      (some (Except.error error.daemon_timeout), tr) := by
  simp [do_wait, seconds_to_ms]

/-- The five ways in which the loop of `client::send` ends when it is given at
least two iterations: the first attempt does not report would-block; the wait
does not end; the wait fails; the second attempt does not report would-block;
the second attempt reports would-block and the wait with timeout zero ends the
call. -/
theorem send_loop_cases (s : substrate) (wfuel fuel : Nat) (message : List Nat) (timeout : Int)
    (tr : List call) :
    ∀ w : Option (expect Unit) × List call,
    w = do_wait s ZMQ_POLLOUT wfuel (seconds_to_ms timeout) (tr ++ [call.send message]) →
    (s.send tr message ≠ Except.error (error.zmq EAGAIN) ∧
      send_loop s wfuel message (fuel + 2) timeout tr [] =
        ⟨some (s.send tr message), tr ++ [call.send message], []⟩) ∨
    (s.send tr message = Except.error (error.zmq EAGAIN) ∧ w.1 = none ∧
      send_loop s wfuel message (fuel + 2) timeout tr [] =
        ⟨none, w.2, [seconds_to_ms timeout]⟩) ∨
    (s.send tr message = Except.error (error.zmq EAGAIN) ∧
      ∃ e1, w.1 = some (Except.error e1) ∧
      send_loop s wfuel message (fuel + 2) timeout tr [] =
        ⟨some (Except.error e1), w.2, [seconds_to_ms timeout]⟩) ∨
    (s.send tr message = Except.error (error.zmq EAGAIN) ∧ w.1 = some (Except.ok ()) ∧
      s.send w.2 message ≠ Except.error (error.zmq EAGAIN) ∧
      send_loop s wfuel message (fuel + 2) timeout tr [] =
        ⟨some (s.send w.2 message), w.2 ++ [call.send message], [seconds_to_ms timeout]⟩) ∨
    (s.send tr message = Except.error (error.zmq EAGAIN) ∧ w.1 = some (Except.ok ()) ∧
      s.send w.2 message = Except.error (error.zmq EAGAIN) ∧
      send_loop s wfuel message (fuel + 2) timeout tr [] =
        ⟨some (Except.error error.daemon_timeout), w.2 ++ [call.send message],
         [seconds_to_ms timeout, 0]⟩) := by
  intro w hw
  rw [send_loop]
  simp only
  rw [← hw]
  cases hs : s.send tr message with
  | ok u =>
    left
    simp
  | error e =>
    by_cases he : e = error.zmq EAGAIN
    · subst he
      right
      simp only [ne_eq, not_true_eq_false, if_false, List.nil_append]
      rcases w with ⟨r, tr2⟩
      rcases r with _ | (e1 | u)
      · left
        simp
      · right
        left
        simp
      · right
        right
        simp only [true_and]
        rw [send_loop]
        simp only
        cases hs2 : s.send tr2 message with
        | ok u2 =>
          left
          simp
        | error e2 =>
          by_cases he2 : e2 = error.zmq EAGAIN
          · subst he2
            right
            rw [do_wait_zero]
            simp [seconds_to_ms]
          · left
            simp [he2]
    · left
      simp [he]

/-- Two iterations are all that the loop of `client::send` ever uses. -/
theorem send_loop_fuel (s : substrate) (wfuel fuel : Nat) (message : List Nat) (timeout : Int)
    (tr : List call) :
    send_loop s wfuel message (fuel + 2) timeout tr [] =
      send_loop s wfuel message 2 timeout tr [] := by
  have h1 := send_loop_cases s wfuel fuel message timeout tr _ rfl
  have h2 := send_loop_cases s wfuel 0 message timeout tr _ rfl
  rcases h1 with ⟨a1, e1⟩ | ⟨a1, b1, e1⟩ | ⟨a1, x1, b1, e1⟩ | ⟨a1, b1, c1, e1⟩ |
    ⟨a1, b1, c1, e1⟩ <;>
  rcases h2 with ⟨a2, e2⟩ | ⟨a2, b2, e2⟩ | ⟨a2, x2, b2, e2⟩ | ⟨a2, b2, c2, e2⟩ |
    ⟨a2, b2, c2, e2⟩ <;>
  first
    | exact absurd a2 a1
    | exact absurd a1 a2
    | exact absurd c2 c1
    | exact absurd c1 c2
    | (rw [b1] at b2; cases b2; rw [e1]; exact e2.symm)
    | (rw [b1] at b2; cases b2)
    | (rw [e1]; exact e2.symm)

/-- The bounds of C7 for `client::send`. -/
theorem send_bounded {R : Type} (c : detail_context R) (s : substrate) (wfuel fuel : Nat)
    (message : List Nat) (timeout : Int) (tr : List call) :
    ∀ (o : outcome Unit) (w : Option (expect Unit) × List call),
      o = client.send (some c) s wfuel (fuel + 2) message timeout tr →
      w = do_wait s ZMQ_POLLOUT wfuel (seconds_to_ms timeout) (tr ++ [call.send message]) →
      (o.waits = [] ∨ o.waits = [seconds_to_ms timeout] ∨ o.waits = [seconds_to_ms timeout, 0]) ∧
      transport_attempts o.trace ≤ transport_attempts tr + 2 ∧
      (o.result = none → w.1 = none) ∧
      (s.send tr message = Except.error (error.zmq EAGAIN) → w.1 = some (Except.ok ()) →
        s.send w.2 message = Except.error (error.zmq EAGAIN) →
        o = ⟨some (Except.error error.daemon_timeout), w.2 ++ [call.send message],
          [seconds_to_ms timeout, 0]⟩) ∧
      o = client.send (some c) s wfuel 2 message timeout tr := by
  intro o w ho hw
  have hatt := do_wait_attempts s ZMQ_POLLOUT wfuel (seconds_to_ms timeout)
    (tr ++ [call.send message])
  have hfuel := send_loop_fuel s wfuel fuel message timeout tr
  have hone : transport_attempts (tr ++ [call.send message]) = transport_attempts tr + 1 := by
    simp [transport_attempts, List.countP_append]
  have htwo : transport_attempts (w.2 ++ [call.send message]) = transport_attempts tr + 2 := by
    rw [← hw] at hatt
    simp only [transport_attempts, List.countP_append] at hatt hone ⊢
    simp at hatt hone ⊢
    omega
  simp only [client.send] at ho ⊢
  rw [← hw] at hatt
  rcases send_loop_cases s wfuel fuel message timeout tr w hw with
    ⟨a, e⟩ | ⟨a, b, e⟩ | ⟨a, e1, b, e⟩ | ⟨a, b, d, e⟩ | ⟨a, b, d, e⟩
  · rw [e] at ho
    subst ho
    refine ⟨Or.inl rfl, ?_, ?_, ?_, ?_⟩
    · simp only [hone]; omega
    · intro h; simp at h
    · intro h; exact absurd h a
    · rw [← hfuel, e]
  · rw [e] at ho
    subst ho
    refine ⟨Or.inr (Or.inl rfl), ?_, ?_, ?_, ?_⟩
    · simp only [hatt, hone]; omega
    · intro _; exact b
    · intro _ h; rw [b] at h; cases h
    · rw [← hfuel, e]
  · rw [e] at ho
    subst ho
    refine ⟨Or.inr (Or.inl rfl), ?_, ?_, ?_, ?_⟩
    · simp only [hatt, hone]; omega
    · intro h; simp at h
    · intro _ h; rw [b] at h; cases h
    · rw [← hfuel, e]
  · rw [e] at ho
    subst ho
    refine ⟨Or.inr (Or.inl rfl), ?_, ?_, ?_, ?_⟩
    · simp only [htwo]; omega
    · intro h; simp at h
    · intro _ _ h; exact absurd h d
    · rw [← hfuel, e]
  · rw [e] at ho
    subst ho
    refine ⟨Or.inr (Or.inr rfl), ?_, ?_, ?_, ?_⟩
    · simp only [htwo]; omega
    · intro h; simp at h
    · intro _ _ _; rfl
    · rw [← hfuel, e]

/-- The five ways in which the loop of `client::get_message` ends when it is given at
least two iterations: the first attempt does not report would-block; the wait
does not end; the wait fails; the second attempt does not report would-block;
the second attempt reports would-block and the wait with timeout zero ends the
call. -/
theorem get_message_loop_cases (s : substrate) (wfuel fuel : Nat) (timeout : Int)
    (tr : List call) :
    ∀ w : Option (expect Unit) × List call,
    w = do_wait s ZMQ_POLLIN wfuel (seconds_to_ms timeout) (tr ++ [call.receive]) →
    (s.receive tr ≠ Except.error (error.zmq EAGAIN) ∧
      get_message_loop s wfuel (fuel + 2) timeout tr [] =
        ⟨some (s.receive tr), tr ++ [call.receive], []⟩) ∨
    (s.receive tr = Except.error (error.zmq EAGAIN) ∧ w.1 = none ∧
      get_message_loop s wfuel (fuel + 2) timeout tr [] =
        ⟨none, w.2, [seconds_to_ms timeout]⟩) ∨
    (s.receive tr = Except.error (error.zmq EAGAIN) ∧
      ∃ e1, w.1 = some (Except.error e1) ∧
      get_message_loop s wfuel (fuel + 2) timeout tr [] =
        ⟨some (Except.error e1), w.2, [seconds_to_ms timeout]⟩) ∨
    (s.receive tr = Except.error (error.zmq EAGAIN) ∧ w.1 = some (Except.ok ()) ∧
      s.receive w.2 ≠ Except.error (error.zmq EAGAIN) ∧
      get_message_loop s wfuel (fuel + 2) timeout tr [] =
        ⟨some (s.receive w.2), w.2 ++ [call.receive], [seconds_to_ms timeout]⟩) ∨
    (s.receive tr = Except.error (error.zmq EAGAIN) ∧ w.1 = some (Except.ok ()) ∧
      s.receive w.2 = Except.error (error.zmq EAGAIN) ∧
      get_message_loop s wfuel (fuel + 2) timeout tr [] =
        ⟨some (Except.error error.daemon_timeout), w.2 ++ [call.receive],
         [seconds_to_ms timeout, 0]⟩) := by
  intro w hw
  rw [get_message_loop]
  simp only
  rw [← hw]
  cases hs : s.receive tr with
  | ok u =>
    left
    simp
  | error e =>
    by_cases he : e = error.zmq EAGAIN
    · subst he
      right
      simp only [ne_eq, not_true_eq_false, if_false, List.nil_append]
      rcases w with ⟨r, tr2⟩
      rcases r with _ | (e1 | u)
      · left
        simp
      · right
        left
        simp
      · right
        right
        simp only [true_and]
        rw [get_message_loop]
        simp only
        cases hs2 : s.receive tr2 with
        | ok u2 =>
          left
          simp
        | error e2 =>
          by_cases he2 : e2 = error.zmq EAGAIN
          · subst he2
            right
            rw [do_wait_zero]
            simp [seconds_to_ms]
          · left
            simp [he2]
    · left
      simp [he]

/-- Two iterations are all that the loop of `client::get_message` ever uses. -/
theorem get_message_loop_fuel (s : substrate) (wfuel fuel : Nat) (timeout : Int)
    (tr : List call) :
    get_message_loop s wfuel (fuel + 2) timeout tr [] =
      get_message_loop s wfuel 2 timeout tr [] := by
  have h1 := get_message_loop_cases s wfuel fuel timeout tr _ rfl
  have h2 := get_message_loop_cases s wfuel 0 timeout tr _ rfl
  rcases h1 with ⟨a1, e1⟩ | ⟨a1, b1, e1⟩ | ⟨a1, x1, b1, e1⟩ | ⟨a1, b1, c1, e1⟩ |
    ⟨a1, b1, c1, e1⟩ <;>
  rcases h2 with ⟨a2, e2⟩ | ⟨a2, b2, e2⟩ | ⟨a2, x2, b2, e2⟩ | ⟨a2, b2, c2, e2⟩ |
    ⟨a2, b2, c2, e2⟩ <;>
  first
    | exact absurd a2 a1
    | exact absurd a1 a2
    | exact absurd c2 c1
    | exact absurd c1 c2
    | (rw [b1] at b2; cases b2; rw [e1]; exact e2.symm)
    | (rw [b1] at b2; cases b2)
    | (rw [e1]; exact e2.symm)

/-- The bounds of C7 for `client::get_message`. -/
theorem get_message_bounded {R : Type} (c : detail_context R) (s : substrate) (wfuel fuel : Nat)
    (timeout : Int) (tr : List call) :
    ∀ (o : outcome (List Nat)) (w : Option (expect Unit) × List call),
      o = client.get_message (some c) s wfuel (fuel + 2) timeout tr →
      w = do_wait s ZMQ_POLLIN wfuel (seconds_to_ms timeout) (tr ++ [call.receive]) →
      (o.waits = [] ∨ o.waits = [seconds_to_ms timeout] ∨ o.waits = [seconds_to_ms timeout, 0]) ∧
      transport_attempts o.trace ≤ transport_attempts tr + 2 ∧
      (o.result = none → w.1 = none) ∧
      (s.receive tr = Except.error (error.zmq EAGAIN) → w.1 = some (Except.ok ()) →
        s.receive w.2 = Except.error (error.zmq EAGAIN) →
        o = ⟨some (Except.error error.daemon_timeout), w.2 ++ [call.receive],
          [seconds_to_ms timeout, 0]⟩) ∧
      o = client.get_message (some c) s wfuel 2 timeout tr := by
  intro o w ho hw
  have hatt := do_wait_attempts s ZMQ_POLLIN wfuel (seconds_to_ms timeout)
    (tr ++ [call.receive])
  have hfuel := get_message_loop_fuel s wfuel fuel timeout tr
  have hone : transport_attempts (tr ++ [call.receive]) = transport_attempts tr + 1 := by
    simp [transport_attempts, List.countP_append]
  have htwo : transport_attempts (w.2 ++ [call.receive]) = transport_attempts tr + 2 := by
    rw [← hw] at hatt
    simp only [transport_attempts, List.countP_append] at hatt hone ⊢
    simp at hatt hone ⊢
    omega
  simp only [client.get_message] at ho ⊢
  rw [← hw] at hatt
  rcases get_message_loop_cases s wfuel fuel timeout tr w hw with
    ⟨a, e⟩ | ⟨a, b, e⟩ | ⟨a, e1, b, e⟩ | ⟨a, b, d, e⟩ | ⟨a, b, d, e⟩
  · rw [e] at ho
    subst ho
    refine ⟨Or.inl rfl, ?_, ?_, ?_, ?_⟩
    · simp only [hone]; omega
    · intro h; simp at h
    · intro h; exact absurd h a
    · rw [← hfuel, e]
  · rw [e] at ho
    subst ho
    refine ⟨Or.inr (Or.inl rfl), ?_, ?_, ?_, ?_⟩
    · simp only [hatt, hone]; omega
    · intro _; exact b
    · intro _ h; rw [b] at h; cases h
    · rw [← hfuel, e]
  · rw [e] at ho
    subst ho
    refine ⟨Or.inr (Or.inl rfl), ?_, ?_, ?_, ?_⟩
    · simp only [hatt, hone]; omega
    · intro h; simp at h
    · intro _ h; rw [b] at h; cases h
    · rw [← hfuel, e]
  · rw [e] at ho
    subst ho
    refine ⟨Or.inr (Or.inl rfl), ?_, ?_, ?_, ?_⟩
    · simp only [htwo]; omega
    · intro h; simp at h
    · intro _ _ h; exact absurd h d
    · rw [← hfuel, e]
  · rw [e] at ho
    subst ho
    refine ⟨Or.inr (Or.inr rfl), ?_, ?_, ?_, ?_⟩
    · simp only [htwo]; omega
    · intro h; simp at h
    · intro _ _ _; rfl
    · rw [← hfuel, e]

/-- C7: a `client::send` call, and likewise a `client::get_message` call,
hands its own timeout to the inner wait at most once and the timeout zero to
any later inner wait; it makes at most two transport attempts; when the
attempt after a successful wait reports would-block again the call ends with
`daemon_timeout` without another poll; the call ends whenever its first
wait ends, and two iterations of its loop are all it ever uses. -/
theorem C7_single_real_wait {R : Type} (c : detail_context R) (s : substrate) (wfuel fuel : Nat)
    (message : List Nat) (timeout : Int) (tr : List call) :
    (∀ (o : outcome Unit) (w : Option (expect Unit) × List call),
      o = client.send (some c) s wfuel (fuel + 2) message timeout tr →
      w = do_wait s ZMQ_POLLOUT wfuel (seconds_to_ms timeout) (tr ++ [call.send message]) →
      (o.waits = [] ∨ o.waits = [seconds_to_ms timeout] ∨ o.waits = [seconds_to_ms timeout, 0]) ∧
      transport_attempts o.trace ≤ transport_attempts tr + 2 ∧
      (o.result = none → w.1 = none) ∧
      (s.send tr message = Except.error (error.zmq EAGAIN) → w.1 = some (Except.ok ()) →
        s.send w.2 message = Except.error (error.zmq EAGAIN) →
        o = ⟨some (Except.error error.daemon_timeout), w.2 ++ [call.send message],
          [seconds_to_ms timeout, 0]⟩) ∧
      o = client.send (some c) s wfuel 2 message timeout tr) ∧
    (∀ (o : outcome (List Nat)) (w : Option (expect Unit) × List call),
      o = client.get_message (some c) s wfuel (fuel + 2) timeout tr →
      w = do_wait s ZMQ_POLLIN wfuel (seconds_to_ms timeout) (tr ++ [call.receive]) →
      (o.waits = [] ∨ o.waits = [seconds_to_ms timeout] ∨ o.waits = [seconds_to_ms timeout, 0]) ∧
      transport_attempts o.trace ≤ transport_attempts tr + 2 ∧
      (o.result = none → w.1 = none) ∧
      (s.receive tr = Except.error (error.zmq EAGAIN) → w.1 = some (Except.ok ()) →
        s.receive w.2 = Except.error (error.zmq EAGAIN) →
        o = ⟨some (Except.error error.daemon_timeout), w.2 ++ [call.receive],
          [seconds_to_ms timeout, 0]⟩) ∧
      o = client.get_message (some c) s wfuel 2 timeout tr) :=
  ⟨send_bounded c s wfuel fuel message timeout tr,
    get_message_bounded c s wfuel fuel timeout tr⟩

/-- Instance of C7: a send with a timeout of five seconds on a daemon socket
that reports would-block twice ends with `daemon_timeout` after one poll and
two attempts. -/
theorem C7_single_real_wait_witness :
    would_block_substrate.send [] [1] = Except.error (error.zmq EAGAIN) ∧
    do_wait would_block_substrate ZMQ_POLLOUT 1 (seconds_to_ms 5) ([] ++ [call.send [1]]) =
      (some (Except.ok ()), [call.send [1], call.now, call.zmq_poll 6 5 5000, call.now]) ∧
    client.send (some fresh_context) would_block_substrate 1 2 [1] 5 [] =
      ⟨some (Except.error error.daemon_timeout),
        [call.send [1], call.now, call.zmq_poll 6 5 5000, call.now, call.send [1]],
        [5000, 0]⟩ :=
  ⟨rfl, rfl,
    ((C7_single_real_wait fresh_context would_block_substrate 1 0 [1] 5 []).1
      (client.send (some fresh_context) would_block_substrate 1 2 [1] 5 [])
      (do_wait would_block_substrate ZMQ_POLLOUT 1 (seconds_to_ms 5) ([] ++ [call.send [1]]))
      rfl rfl).2.2.2.1 rfl rfl rfl⟩

end rpc
end lws
